import Mathlib

/-!
Shallow embedding of the acvm-simulator core: the native-module bridge
(src/barretenberg/mod.rs), the three blackbox adapters and the circuit
execution driver (src/execute.rs).

Field elements are modelled as natural numbers (their canonical value);
witness maps as association lists from witness index to value; the external
wasm module, the external solver and the host-call handler are parameters,
since they are external collaborators of the core under verification.
Rust panics (slice-index panics, `unwrap`, `expect`) are modelled as a
distinct `panic` outcome, separate from returned errors.
-/

/-- Outcome of a Rust computation that may panic (unwrap/expect/index out of
bounds) instead of returning. -/
inductive PanicOr (α : Type) where
  | ok (a : α)
  | panic (msg : String)
deriving DecidableEq, Repr

/-- True when the outcome is a panic. -/
def PanicOr.isPanic {α : Type} : PanicOr α → Bool
  | .ok _ => false
  | .panic _ => true

/-! ## Native module bridge (src/barretenberg/mod.rs)

The wasmer linear memory is modelled by its current size in bytes and its
byte contents. `MemoryView::write` / `MemoryView::read` succeed exactly when
the whole target range lies inside the current memory size; neither grows
the memory. -/

/-- The sandboxed module's linear memory: current size and byte contents. -/
structure WasmMemory where
  size : Nat
  data : Nat → Nat

/-- Model of wasmer `MemoryView::write`: writes `bytes` at `offset` when the
range fits in the current memory, otherwise reports an out-of-bounds error;
the memory is never grown. -/
def memViewWrite (mem : WasmMemory) (offset : Nat) (bytes : List Nat) :
    Except String WasmMemory :=
  if offset + bytes.length ≤ mem.size then
    .ok { size := mem.size,
          data := fun a =>
            if offset ≤ a ∧ a < offset + bytes.length then bytes.getD (a - offset) 0
            else mem.data a }
  else
    .error ("out of bounds memory access")

/-- Model of wasmer `MemoryView::read`: fills a buffer of exactly `len`
bytes starting at `offset` when the range fits in the current memory,
otherwise reports an out-of-bounds error. -/
def memViewRead (mem : WasmMemory) (offset len : Nat) :
    Except String (List Nat) :=
  if offset + len ≤ mem.size then
    .ok ((List.range len).map (fun i => mem.data (offset + i)))
  else
    .error ("out of bounds memory access")

/-- Embedding of `Barretenberg::transfer_to_heap`: `memory_view.write(offset,
data).unwrap()` — the `unwrap` turns an out-of-bounds write into a panic. -/
def transfer_to_heap (mem : WasmMemory) (data : List Nat) (offset : Nat) :
    PanicOr WasmMemory :=
  match memViewWrite mem offset data with
  | .ok m => .ok m
  | .error e => .panic e

/-- Embedding of `Barretenberg::read_memory_variable_length`: allocates
`vec![0; length]`, then `memory_view.read(offset, &mut buf).unwrap()`. -/
def read_memory_variable_length (mem : WasmMemory) (offset length : Nat) :
    PanicOr (List Nat) :=
  match memViewRead mem offset length with
  | .ok bs => .ok bs
  | .error e => .panic e

/-- Embedding of `Barretenberg::read_memory::<SIZE>`: calls the
variable-length read and then checks, via `try_into().expect(...)`, that the
result has exactly `SIZE` bytes. -/
def read_memory (mem : WasmMemory) (SIZE start : Nat) : PanicOr (List Nat) :=
  match read_memory_variable_length mem start SIZE with
  | .ok bs =>
      if bs.length = SIZE then .ok bs
      else .panic ("Read memory should be of the specified length")
  | .panic e => .panic e

/-! ## Witness map and acvm helper functions

A `FieldElement` is modelled by its canonical natural-number value; its
canonical external form is the 32-byte big-endian array produced by
`to_be_bytes`. The `WitnessMap` (a `BTreeMap<Witness, FieldElement>`) is an
association list with unique keys; `insert` replaces the value at an
existing key and reports the previous value. -/

/-- Big-endian 32-byte encoding of a field element, `FieldElement::to_be_bytes`. -/
def toBeBytes (n : Nat) : List Nat :=
  (List.range 32).map (fun i => n / 256 ^ (31 - i) % 256)

/-- Witness map: association list from witness index to field-element value. -/
def WitnessMap : Type := List (Nat × Nat)

instance : DecidableEq WitnessMap := by
  unfold WitnessMap
  infer_instance

/-- First-match lookup, `BTreeMap::get`. -/
def lookupW (m : WitnessMap) (w : Nat) : Option Nat :=
  match m with
  | [] => none
  | (k, v) :: rest => if k = w then some v else lookupW rest w

/-- Insert, `BTreeMap::insert`: replaces the value at an existing key (keeping
its position) or appends a new binding. -/
def insertW (m : WitnessMap) (w v : Nat) : WitnessMap :=
  match m with
  | [] => [(w, v)]
  | (k, v0) :: rest => if k = w then (w, v) :: rest else (k, v0) :: insertW rest w v

/-- The blackbox functions implemented by the simulated backend. -/
inductive BlackBoxFunc where
  | SchnorrVerify
  | Pedersen
  | FixedBaseScalarMul
deriving DecidableEq, Repr

/-- The acvm opcode-resolution errors the adapters can produce. -/
inductive OpcodeResolutionError where
  | OpcodeNotSolvable (missingAssignment : Nat)
  | UnsatisfiedConstrain
  | BlackBoxFunctionFailed (func : BlackBoxFunc) (msg : String)
deriving DecidableEq, Repr

/-- The acvm resolution outcome an adapter returns on success. -/
inductive OpcodeResolution where
  | Solved
deriving DecidableEq, Repr

/-- Result of an adapter call on a mutable witness map: either a value with
the final map, a returned error with the map as mutated so far, or a panic
(which aborts, leaving nothing observable). -/
inductive RRes (α : Type) where
  | ok (m : WitnessMap) (a : α)
  | err (m : WitnessMap) (e : OpcodeResolutionError)
  | panic (msg : String)
deriving DecidableEq

/-- Embedding of acvm `witness_to_value`: looks the witness up in the map and
fails with `OpcodeNotSolvable(MissingAssignment)` when it is absent. -/
def witness_to_value (m : WitnessMap) (w : Nat) :
    Except OpcodeResolutionError Nat :=
  match lookupW m w with
  | some v => .ok v
  | none => .error (.OpcodeNotSolvable w)

/-- Embedding of acvm `insert_value`: inserts first (`BTreeMap::insert`), then
reports `UnsatisfiedConstrain` when a previous, different value was bound.
The map returned alongside the error already holds the new value. -/
def insert_value (w v : Nat) (m : WitnessMap) :
    WitnessMap × Option OpcodeResolutionError :=
  let old := lookupW m w
  let m2 := insertW m w v
  (m2,
    match old with
    | some o => if o = v then none else some .UnsatisfiedConstrain
    | none => none)

/-- True when an adapter outcome is a panic. -/
def RRes.isPanic {α : Type} : RRes α → Bool
  | .ok _ _ => false
  | .err _ _ => false
  | .panic _ => true

/-! ## Blackbox function adapters (impl PartialWitnessGenerator for SimulatedBackend)

Each adapter takes the module call it performs (`verify_signature`,
`encrypt`, `fixed_base`) as a function parameter, since those live in the
external Barretenberg module. Rust slice indexing `xs[a..b]` and `xs[i]`
panics when out of range; `try_into` on a slice of the exact length always
succeeds, so the `map_err` branches attached to them are kept but can only
fire when the slice length differs from the target. -/

/-- Rust range slicing `bytes[lo..hi]`: panics (here `none`) when the range
does not fit the slice. -/
def sliceRange (bs : List Nat) (lo hi : Nat) : Option (List Nat) :=
  if lo ≤ hi ∧ hi ≤ bs.length then some ((bs.drop lo).take (hi - lo)) else none

/-- Extraction of one signature or message byte: the last byte of the witness
value's 32-byte big-endian form (its value modulo 256). -/
def collectLowBytes (m : WitnessMap) (ws : List Nat) :
    Except OpcodeResolutionError (List Nat) :=
  match ws with
  | [] => .ok []
  | w :: rest =>
      match witness_to_value m w with
      | .error e => .error e
      | .ok v =>
          match collectLowBytes m rest with
          | .error e => .error e
          | .ok bs => .ok ((toBeBytes v).getLastD 0 :: bs)

/-- Embedding of `SimulatedBackend::schnorr_verify`. The vendor parameter is
`Barretenberg::verify_signature`, taking the 64-byte public key, the two
32-byte signature halves and the message bytes. -/
def schnorr_verify (vendor : List Nat → List Nat → List Nat → List Nat → Except String Bool)
    (m : WitnessMap) (public_key_x public_key_y : Nat)
    (signature : List Nat) (message : List Nat) (output : Nat) :
    RRes OpcodeResolution :=
  match witness_to_value m public_key_x with
  | .error e => .err m e
  | .ok vx =>
  match witness_to_value m public_key_y with
  | .error e => .err m e
  | .ok vy =>
  let pub_key_bytes := toBeBytes vx ++ toBeBytes vy
  if pub_key_bytes.length = 64 then
    match collectLowBytes m signature with
    | .error e => .err m e
    | .ok signature_bytes =>
    match sliceRange signature_bytes 0 32 with
    | none => .panic ("range end index 32 out of range")
    | some sig_s_slice =>
    if sig_s_slice.length = 32 then
      match sliceRange signature_bytes 32 64 with
      | none => .panic ("range end index 64 out of range")
      | some sig_e_slice =>
      if sig_e_slice.length = 32 then
        match collectLowBytes m message with
        | .error e => .err m e
        | .ok message_bytes =>
        match vendor pub_key_bytes sig_s_slice sig_e_slice message_bytes with
        | .error emsg => .err m (.BlackBoxFunctionFailed .SchnorrVerify emsg)
        | .ok valid_signature =>
        match insert_value output (if valid_signature then 1 else 0) m with
        | (m2, some e) => .err m2 e
        | (m2, none) => .ok m2 .Solved
      else
        .err m (.BlackBoxFunctionFailed .SchnorrVerify
          ("signature should be 64 bytes long, found only " ++
            toString signature.length ++ " bytes"))
    else
      .err m (.BlackBoxFunctionFailed .SchnorrVerify
        ("signature should be 64 bytes long, found only " ++
          toString signature.length ++ " bytes"))
  else
    .err m (.BlackBoxFunctionFailed .SchnorrVerify
      ("expected pubkey size 64 but received " ++ toString pub_key_bytes.length))

/-- Resolution of the input witnesses of `pedersen`, mirroring the
`inputs.iter().map(witness_to_value).collect::<Result<Vec<_>, _>>()` step. -/
def collectValues (m : WitnessMap) (ws : List Nat) :
    Except OpcodeResolutionError (List Nat) :=
  match ws with
  | [] => .ok []
  | w :: rest =>
      match witness_to_value m w with
      | .error e => .error e
      | .ok v =>
          match collectValues m rest with
          | .error e => .error e
          | .ok vs => .ok (v :: vs)

/-- Embedding of `SimulatedBackend::pedersen`. The vendor parameter is
`Barretenberg::encrypt`, returning the commitment point's two coordinates.
The domain separator is taken but assumed to be zero, as in the source. -/
def pedersen (vendor : List Nat → Except String (Nat × Nat))
    (m : WitnessMap) (inputs : List Nat) ( _domain_separator : Nat)
    (outputs : List Nat) : RRes OpcodeResolution :=
  match collectValues m inputs with
  | .error e => .err m e
  | .ok scalars =>
  match vendor scalars with
  | .error emsg => .err m (.BlackBoxFunctionFailed .Pedersen emsg)
  | .ok (res_x, res_y) =>
  match outputs[0]? with
  | none => .panic ("index out of bounds: the len is 0 but the index is 0")
  | some o0 =>
  match insert_value o0 res_x m with
  | (m1, some e) => .err m1 e
  | (m1, none) =>
  match outputs[1]? with
  | none => .panic ("index out of bounds: the len is 1 but the index is 1")
  | some o1 =>
  match insert_value o1 res_y m1 with
  | (m2, some e) => .err m2 e
  | (m2, none) => .ok m2 .Solved

/-- Embedding of `SimulatedBackend::fixed_base_scalar_mul`. The vendor
parameter is `Barretenberg::fixed_base`, returning the curve point. -/
def fixed_base_scalar_mul (vendor : Nat → Except String (Nat × Nat))
    (m : WitnessMap) (input : Nat) (outputs : List Nat) :
    RRes OpcodeResolution :=
  match witness_to_value m input with
  | .error e => .err m e
  | .ok scalar =>
  match vendor scalar with
  | .error emsg => .err m (.BlackBoxFunctionFailed .FixedBaseScalarMul emsg)
  | .ok (pub_x, pub_y) =>
  match outputs[0]? with
  | none => .panic ("index out of bounds: the len is 0 but the index is 0")
  | some o0 =>
  match insert_value o0 pub_x m with
  | (m1, some e) => .err m1 e
  | (m1, none) =>
  match outputs[1]? with
  | none => .panic ("index out of bounds: the len is 1 but the index is 1")
  | some o1 =>
  match insert_value o1 pub_y m1 with
  | (m2, some e) => .err m2 e
  | (m2, none) => .ok m2 .Solved

/-! ## Circuit execution driver (execute_circuit, process_brillig_calls)

The external solver (`acvm::pwg::solve`), the circuit deserializer
(`Circuit::read`) and the host-call handler (`resolve_brillig` over the
caller's `ForeignCallHandler`) are parameters: they are external
collaborators. Opcode payloads the driver never inspects are abstracted to a
natural number plus the list of witness indices the opcode references. -/

/-- Descriptor of one pending host call: function name and argument values. -/
structure ForeignCallWaitInfo where
  function : String
  inputs : List Nat
deriving DecidableEq, Repr

/-- Result of one resolved host call. -/
structure ForeignCallResult where
  values : List Nat
deriving DecidableEq, Repr

/-- A Brillig block: its witness references and remaining payload are opaque
to the driver; only `foreign_call_results` is extended on resumption. -/
structure Brillig where
  wits : List Nat
  payload : Nat
  foreign_call_results : List ForeignCallResult
deriving DecidableEq, Repr

/-- One circuit instruction, as far as the driver distinguishes them. -/
inductive Opcode where
  | Arith (wits : List Nat) (payload : Nat)
  | Brillig (b : Brillig)
deriving DecidableEq, Repr

/-- Witness indices referenced by an opcode. -/
def Opcode.witnessRefs : Opcode → List Nat
  | .Arith ws _ => ws
  | .Brillig b => b.wits

/-- Witness indices referenced by an opcode list. -/
def witnessRefsOf (ops : List Opcode) : List Nat :=
  (ops.map Opcode.witnessRefs).flatten

/-- A paused Brillig block paired with the host call it is waiting on. -/
structure UnresolvedBrilligCall where
  brillig : Brillig
  foreign_call_wait_info : ForeignCallWaitInfo
deriving DecidableEq, Repr

/-- Status returned by one `acvm::pwg::solve` step. -/
inductive SolverStatus where
  | Solved
  | RequiresOracleData (required_oracle_data : Nat) (unsolved_opcodes : List Opcode)
      (unresolved_brillig_calls : List UnresolvedBrilligCall)

/-- The external solver: takes the witness map, the block state and the
opcode list, and either fails (its error already rendered to a string, as
`err.to_string()` does in the driver) or returns the mutated witness map and
block state with a status. -/
def Solver : Type :=
  WitnessMap → Nat → List Opcode → Except String (WitnessMap × Nat × SolverStatus)

/-- The host-call handler as seen from the driver: `resolve_brillig` applied
to the caller's `ForeignCallHandler`, resolving one wait info to a result or
an error string. -/
def Handler : Type := ForeignCallWaitInfo → Except String ForeignCallResult

/-- Embedding of `process_brillig_calls`: resolves each pending call's wait
info through the handler (in batch order), pushes each result onto its own
originating Brillig block's `foreign_call_results`, and wraps the block as a
new Brillig opcode; the first handler error aborts the whole batch. -/
def process_brillig_calls (handler : Handler)
    (brillig_foreign_calls : List UnresolvedBrilligCall) :
    Except String (List Opcode) :=
  match brillig_foreign_calls with
  | [] => .ok []
  | c :: rest =>
      match handler c.foreign_call_wait_info with
      | .error e => .error e
      | .ok r =>
          match process_brillig_calls handler rest with
          | .error e => .error e
          | .ok ops =>
              .ok (.Brillig { c.brillig with
                foreign_call_results := c.brillig.foreign_call_results ++ [r] } :: ops)

/-- Outcome of one full circuit execution. -/
inductive ExecOutcome where
  | solved (m : WitnessMap)
  | failed (e : String)
  | panicked (msg : String)
  | outOfFuel
deriving DecidableEq

/-- The driver loop of `execute_circuit`: one solver step per iteration; on
`Solved` the witness map is returned, on `RequiresOracleData` the pending
host calls are processed and the next iteration runs the residual unsolved
opcodes followed by the regenerated Brillig opcodes. `fuel` bounds the
number of iterations, standing for the unbounded Rust `loop`. -/
def executeLoop (solver : Solver) (handler : Handler) :
    Nat → WitnessMap → Nat → List Opcode → ExecOutcome
  | 0, _, _, _ => .outOfFuel
  | fuel + 1, m, blocks, opcodes =>
      match solver m blocks opcodes with
      | .error e => .failed e
      | .ok (m2, _, .Solved) => .solved m2
      | .ok (m2, blocks2, .RequiresOracleData _ unsolved_opcodes unresolved_brillig_calls) =>
          match process_brillig_calls handler unresolved_brillig_calls with
          | .error e => .failed e
          | .ok new_brillig_opcodes =>
              executeLoop solver handler fuel m2 blocks2
                (unsolved_opcodes ++ new_brillig_opcodes)

/-- A deserialized circuit: its opcode list plus opaque metadata. -/
structure Circuit where
  opcodes : List Opcode
  payload : Nat

/-- Embedding of `execute_circuit`: deserializes the circuit bytes — the
`expect` on `Circuit::read` turns a malformed buffer into a panic before any
solving — then runs the driver loop from the initial witness map and fresh
block state. -/
def execute_circuit (deserialize : List Nat → Option Circuit) (solver : Solver)
    (handler : Handler) (fuel : Nat) (circuit_bytes : List Nat)
    (initial_witness : WitnessMap) : ExecOutcome :=
  match deserialize circuit_bytes with
  | none => .panicked ("Failed to deserialize circuit")
  | some circuit => executeLoop solver handler fuel initial_witness 0 circuit.opcodes

/-- The regenerated Brillig opcode produced from one resolved host call: the
originating block with the call's result appended. -/
def regenBrillig (c : UnresolvedBrilligCall) (r : ForeignCallResult) : Opcode :=
  .Brillig { c.brillig with
    foreign_call_results := c.brillig.foreign_call_results ++ [r] }

/-- True when an adapter outcome is a successful resolution. -/
def RRes.isOk {α : Type} : RRes α → Bool
  | .ok _ _ => true
  | .err _ _ => false
  | .panic _ => false

/-- Signature (or message) witness indices 10, 11, …, `n` + 9, used for
concrete adapter runs. -/
def sigWits (n : Nat) : List Nat :=
  (List.range n).map (fun i => i + 10)

/-- A witness map binding the public-key witnesses 1 and 2 and each signature
witness `i` + 10 to the value `i`. -/
def sigMap (n : Nat) : WitnessMap :=
  (1, 2) :: (2, 3) :: (List.range n).map (fun i => (i + 10, i))

/-- Every missing-assignment failure in the outcome carries the given witness
map unchanged. Missing-assignment (`OpcodeNotSolvable`) errors are exactly
the input-resolution failures of an adapter: `witness_to_value` is their only
source, while length, module-call and output-conflict failures use the other
error constructors. -/
def untouchedOnMissing (r : RRes OpcodeResolution) (m : WitnessMap) : Prop :=
  ∀ m2 w, r = .err m2 (.OpcodeNotSolvable w) → m2 = m

/-! ## Helper lemmas -/

/-- The canonical byte form of a field element has exactly 32 bytes. -/
theorem toBeBytes_length (n : Nat) : (toBeBytes n).length = 32 := by
  simp [toBeBytes]

/-- A successful Rust range slice has exactly the requested length. -/
theorem sliceRange_some_length (bs : List Nat) (lo hi : Nat) (s : List Nat)
    (h : sliceRange bs lo hi = some s) : s.length = hi - lo := by
  unfold sliceRange at h
  by_cases hc : lo ≤ hi ∧ hi ≤ bs.length
  · rw [if_pos hc] at h
    cases h
    simp only [List.length_take, List.length_drop]
    omega
  · rw [if_neg hc] at h
    cases h

/-- When every witness in the list is present, low-byte collection succeeds
with one byte per witness. -/
theorem collectLowBytes_ok (m : WitnessMap) (ws : List Nat)
    (h : ∀ s ∈ ws, (lookupW m s).isSome) :
    ∃ bs, collectLowBytes m ws = .ok bs ∧ bs.length = ws.length := by
  induction ws with
  | nil => exact ⟨[], rfl, rfl⟩
  | cons w rest ih =>
      have hw : (lookupW m w).isSome := h w (by simp)
      obtain ⟨v, hv⟩ := Option.isSome_iff_exists.mp hw
      obtain ⟨bs, hbs, hlen⟩ := ih (fun s hs => h s (by simp [hs]))
      refine ⟨(toBeBytes v).getLastD 0 :: bs, ?_, by simp [hlen]⟩
      simp [collectLowBytes, witness_to_value, hv, hbs]

/-- When every witness in the list is present, value collection succeeds with
one value per witness. -/
theorem collectValues_ok (m : WitnessMap) (ws : List Nat)
    (h : ∀ s ∈ ws, (lookupW m s).isSome) :
    ∃ vs, collectValues m ws = .ok vs ∧ vs.length = ws.length := by
  induction ws with
  | nil => exact ⟨[], rfl, rfl⟩
  | cons w rest ih =>
      have hw : (lookupW m w).isSome := h w (by simp)
      obtain ⟨v, hv⟩ := Option.isSome_iff_exists.mp hw
      obtain ⟨vs, hvs, hlen⟩ := ih (fun s hs => h s (by simp [hs]))
      refine ⟨v :: vs, ?_, by simp [hlen]⟩
      simp [collectValues, witness_to_value, hv, hvs]

/-! ## Claim theorems -/

/-- C10: whenever `read_memory_variable_length` returns normally it returns
exactly the requested number of bytes, so the fixed-size `read_memory`'s
length check (`Read memory should be of the specified length`) can never
fail when the underlying read succeeds — `read_memory` then returns the same
bytes. -/
theorem read_variable_length_exact (mem : WasmMemory) (offset len : Nat)
    (bs : List Nat)
    (h : read_memory_variable_length mem offset len = .ok bs) :
    bs.length = len ∧ read_memory mem len offset = .ok bs := by
  have hread : memViewRead mem offset len = .ok bs := by
    unfold read_memory_variable_length at h
    cases hmv : memViewRead mem offset len with
    | ok v => rw [hmv] at h; cases h; rfl
    | error e => rw [hmv] at h; cases h
  have hlen : bs.length = len := by
    unfold memViewRead at hread
    by_cases hle : offset + len ≤ mem.size
    · rw [if_pos hle] at hread
      cases hread
      simp
    · rw [if_neg hle] at hread
      cases hread
  refine ⟨hlen, ?_⟩
  unfold read_memory
  rw [h]
  simp [hlen]

/-- Witness for C10 at a concrete memory, offset and length. -/
theorem read_variable_length_exact_w :
    ([7, 7] : List Nat).length = 2 ∧
      read_memory ⟨4, fun _ => 7⟩ 2 1 = .ok [7, 7] :=
  read_variable_length_exact ⟨4, fun _ => 7⟩ 1 2 [7, 7] rfl

/-- C8: a write (`transfer_to_heap`) or read (`read_memory_variable_length`)
whose target range exceeds the module's current linear-memory size fails —
it panics with the out-of-bounds error instead of performing the access, and
no memory growth occurs (the failing outcome carries no memory at all). -/
theorem bridge_oob_write_read_fail (mem : WasmMemory) (data : List Nat)
    (offset len : Nat)
    (hw : mem.size < offset + data.length) (hr : mem.size < offset + len) :
    transfer_to_heap mem data offset = .panic ("out of bounds memory access") ∧
      read_memory_variable_length mem offset len =
        .panic ("out of bounds memory access") := by
  constructor
  · unfold transfer_to_heap memViewWrite
    rw [if_neg (by omega)]
  · unfold read_memory_variable_length memViewRead
    rw [if_neg (by omega)]

/-- Witness for C8: a 2-byte memory, a 3-byte write at offset 1 and a 5-byte
read at offset 1 both overrun and panic. -/
theorem bridge_oob_write_read_fail_w :
    transfer_to_heap ⟨2, fun _ => 0⟩ [1, 2, 3] 1 =
        .panic ("out of bounds memory access") ∧
      read_memory_variable_length ⟨2, fun _ => 0⟩ 1 5 =
        .panic ("out of bounds memory access") :=
  bridge_oob_write_read_fail ⟨2, fun _ => 0⟩ [1, 2, 3] 1 5 (by decide) (by decide)

/-- C7: a byte buffer that does not deserialize to a circuit makes
`execute_circuit` fail — via the `expect` panic named after deserialization —
before any execution begins: the outcome is the same for every solver,
handler, fuel bound and initial witness, so no solver step runs and no
witness is touched. -/
theorem malformed_circuit_fails_before_execution
    (deserialize : List Nat → Option Circuit) (bytes : List Nat)
    (hmal : deserialize bytes = none) :
    ∀ (solver : Solver) (handler : Handler) (fuel : Nat) (m0 : WitnessMap),
      execute_circuit deserialize solver handler fuel bytes m0 =
        .panicked ("Failed to deserialize circuit") := by
  intro solver handler fuel m0
  unfold execute_circuit
  rw [hmal]

/-- Witness for C7 at a concrete always-failing deserializer. -/
theorem malformed_circuit_fails_before_execution_w :
    execute_circuit (fun _ => none) (fun _ _ _ => .error ("s"))
        (fun _ => .error ("h")) 3 [0] [] =
      .panicked ("Failed to deserialize circuit") :=
  malformed_circuit_fails_before_execution (fun _ => none) [0] rfl
    (fun _ _ _ => .error ("s")) (fun _ => .error ("h")) 3 []

/-- C9: when the circuit deserializes and the external solver resolves the
whole opcode list in one step without reporting pending host calls, the
driver loop terminates immediately (one unit of fuel suffices for every fuel
bound) in the solved state, returning the solver's witness map; under the
solver's contract that a fully-solved map covers every referenced witness
index, the returned map contains every witness index referenced by the
circuit. -/
theorem no_host_calls_terminates_solved
    (deserialize : List Nat → Option Circuit) (solver : Solver)
    (handler : Handler) (bytes : List Nat) (m0 m1 : WitnessMap)
    (blocks1 : Nat) (circuit : Circuit)
    (hdes : deserialize bytes = some circuit)
    (hsolve : solver m0 0 circuit.opcodes = .ok (m1, blocks1, .Solved))
    (hcontract : ∀ w ∈ witnessRefsOf circuit.opcodes, (lookupW m1 w).isSome) :
    ∀ fuel : Nat,
      execute_circuit deserialize solver handler (fuel + 1) bytes m0 =
        .solved m1 ∧
      ∀ w ∈ witnessRefsOf circuit.opcodes, (lookupW m1 w).isSome := by
  intro fuel
  refine ⟨?_, hcontract⟩
  unfold execute_circuit
  rw [hdes]
  unfold executeLoop
  rw [hsolve]

/-- Witness for C9: a one-opcode circuit whose solver step resolves witness 1
to 5 and reports `Solved`. -/
theorem no_host_calls_terminates_solved_w :
    execute_circuit (fun _ => some ⟨[.Arith [1] 0], 0⟩)
        (fun _ _ _ => .ok ([(1, 5)], 0, .Solved)) (fun _ => .error ("h"))
        (3 + 1) [9] [] =
      .solved [(1, 5)] ∧
    ∀ w ∈ witnessRefsOf ([.Arith [1] 0] : List Opcode),
      (lookupW [(1, 5)] w).isSome :=
  no_host_calls_terminates_solved (fun _ => some ⟨[.Arith [1] 0], 0⟩)
    (fun _ _ _ => .ok ([(1, 5)], 0, .Solved)) (fun _ => .error ("h")) [9] []
    [(1, 5)] 0 ⟨[.Arith [1] 0], 0⟩ rfl rfl (by decide) 3

/-- When every pending call's wait info resolves through the handler (with
`f` naming each call's result), the batch succeeds and regenerates exactly
one Brillig opcode per call, in batch order. -/
theorem process_brillig_calls_ok_of_all_ok (handler : Handler)
    (f : UnresolvedBrilligCall → ForeignCallResult)
    (calls : List UnresolvedBrilligCall)
    (h : ∀ c ∈ calls, handler c.foreign_call_wait_info = .ok (f c)) :
    process_brillig_calls handler calls =
      .ok (calls.map (fun c => regenBrillig c (f c))) := by
  induction calls with
  | nil => rfl
  | cons c rest ih =>
      have hc := h c (by simp)
      have hrest := ih (fun c2 h2 => h c2 (by simp [h2]))
      simp [process_brillig_calls, hc, hrest, regenBrillig]

/-- When the handler fails on one call after succeeding on every earlier one
in the batch, the whole batch fails with that error. -/
theorem process_brillig_calls_first_error (handler : Handler)
    (pre post : List UnresolvedBrilligCall) (c : UnresolvedBrilligCall)
    (e : String)
    (hpre : ∀ c2 ∈ pre, ∃ r, handler c2.foreign_call_wait_info = .ok r)
    (hc : handler c.foreign_call_wait_info = .error e) :
    process_brillig_calls handler (pre ++ c :: post) = .error e := by
  induction pre with
  | nil => simp [process_brillig_calls, hc]
  | cons a rest ih =>
      obtain ⟨r, hr⟩ := hpre a (by simp)
      have htail := ih (fun c2 h2 => hpre c2 (by simp [h2]))
      simp [process_brillig_calls, hr]
      simp at htail
      simp [htail]

/-- C1: when a solver pause yields a batch of pending host calls and every
one of them resolves (call `c`'s result `f c`), the driver resolves each
request through the handler exactly once and the next iteration's opcode
list is exactly the residual unsolved opcodes followed by one regenerated
Brillig opcode per pending call — the batch keeps its order, and the `i`-th
regenerated opcode carries the result `f` of the `i`-th originating request,
so results are matched by request identity. -/
theorem brillig_batch_regenerates_all (solver : Solver) (handler : Handler)
    (f : UnresolvedBrilligCall → ForeignCallResult)
    (m m2 : WitnessMap) (blocksSt blocks2 oracle fuel : Nat)
    (opcodes unsolved : List Opcode) (calls : List UnresolvedBrilligCall)
    (hsolve : solver m blocksSt opcodes =
      .ok (m2, blocks2, .RequiresOracleData oracle unsolved calls))
    (hhandler : ∀ c ∈ calls, handler c.foreign_call_wait_info = .ok (f c)) :
    process_brillig_calls handler calls =
        .ok (calls.map (fun c => regenBrillig c (f c))) ∧
      (calls.map (fun c => regenBrillig c (f c))).length = calls.length ∧
      executeLoop solver handler (fuel + 1) m blocksSt opcodes =
        executeLoop solver handler fuel m2 blocks2
          (unsolved ++ calls.map (fun c => regenBrillig c (f c))) := by
  have hbatch := process_brillig_calls_ok_of_all_ok handler f calls hhandler
  refine ⟨hbatch, by simp, ?_⟩
  conv_lhs => rw [executeLoop]
  rw [hsolve]
  simp only [hbatch]

/-- Witness for C1: a two-call batch whose handler returns each request's own
inputs; each regenerated opcode carries its own request's result. -/
theorem brillig_batch_regenerates_all_w :
    process_brillig_calls (fun w => .ok ⟨w.inputs⟩)
        [⟨⟨[1], 0, []⟩, ⟨"foo", [4]⟩⟩, ⟨⟨[2], 0, []⟩, ⟨"bar", [6]⟩⟩] =
      .ok ([⟨⟨[1], 0, []⟩, ⟨"foo", [4]⟩⟩, ⟨⟨[2], 0, []⟩,
          ⟨"bar", [6]⟩⟩].map
          (fun c => regenBrillig c ⟨c.foreign_call_wait_info.inputs⟩)) ∧
    ([⟨⟨[1], 0, []⟩, ⟨"foo", [4]⟩⟩, ⟨⟨[2], 0, []⟩, ⟨"bar", [6]⟩⟩].map
        (fun c => regenBrillig c ⟨c.foreign_call_wait_info.inputs⟩)).length =
      ([⟨⟨[1], 0, []⟩, ⟨"foo", [4]⟩⟩,
        ⟨⟨[2], 0, []⟩, ⟨"bar", [6]⟩⟩] : List UnresolvedBrilligCall).length ∧
    executeLoop
        (fun _ _ _ => .ok ([], 0, .RequiresOracleData 0 [.Arith [3] 7]
          [⟨⟨[1], 0, []⟩, ⟨"foo", [4]⟩⟩, ⟨⟨[2], 0, []⟩, ⟨"bar", [6]⟩⟩]))
        (fun w => .ok ⟨w.inputs⟩) (2 + 1) [] 0 [] =
      executeLoop
        (fun _ _ _ => .ok ([], 0, .RequiresOracleData 0 [.Arith [3] 7]
          [⟨⟨[1], 0, []⟩, ⟨"foo", [4]⟩⟩, ⟨⟨[2], 0, []⟩, ⟨"bar", [6]⟩⟩]))
        (fun w => .ok ⟨w.inputs⟩) 2 [] 0
        ([.Arith [3] 7] ++
          [⟨⟨[1], 0, []⟩, ⟨"foo", [4]⟩⟩, ⟨⟨[2], 0, []⟩, ⟨"bar", [6]⟩⟩].map
            (fun c => regenBrillig c ⟨c.foreign_call_wait_info.inputs⟩)) :=
  brillig_batch_regenerates_all
    (fun _ _ _ => .ok ([], 0, .RequiresOracleData 0 [.Arith [3] 7]
      [⟨⟨[1], 0, []⟩, ⟨"foo", [4]⟩⟩, ⟨⟨[2], 0, []⟩, ⟨"bar", [6]⟩⟩]))
    (fun w => .ok ⟨w.inputs⟩)
    (fun c => ⟨c.foreign_call_wait_info.inputs⟩) [] [] 0 0 0 2 [] [.Arith [3] 7]
    [⟨⟨[1], 0, []⟩, ⟨"foo", [4]⟩⟩, ⟨⟨[2], 0, []⟩, ⟨"bar", [6]⟩⟩] rfl
    (fun _ _ => rfl)

/-- C2: when the solver pauses with a batch of pending host calls and the
handler fails on one of them while succeeding on every other call in the
batch, the whole execution fails with that handler error — no partial
resumption happens. -/
theorem handler_error_fails_execution
    (deserialize : List Nat → Option Circuit) (solver : Solver)
    (handler : Handler) (bytes : List Nat) (m0 m1 : WitnessMap)
    (blocks1 oracle : Nat) (circuit : Circuit) (unsolved : List Opcode)
    (pre post : List UnresolvedBrilligCall) (c : UnresolvedBrilligCall)
    (e : String)
    (hdes : deserialize bytes = some circuit)
    (hsolve : solver m0 0 circuit.opcodes =
      .ok (m1, blocks1, .RequiresOracleData oracle unsolved (pre ++ c :: post)))
    (hpre : ∀ c2 ∈ pre, ∃ r, handler c2.foreign_call_wait_info = .ok r)
    (hpost : ∀ c2 ∈ post, ∃ r, handler c2.foreign_call_wait_info = .ok r)
    (hc : handler c.foreign_call_wait_info = .error e) :
    ∀ fuel : Nat,
      execute_circuit deserialize solver handler (fuel + 1) bytes m0 =
        .failed e := by
  intro fuel
  unfold execute_circuit
  rw [hdes]
  unfold executeLoop
  rw [hsolve]
  simp only [process_brillig_calls_first_error handler pre post c e hpre hc]

/-- Witness for C2: a two-call batch in which the second handler invocation
succeeds but the first fails; the execution fails with the handler's error. -/
theorem handler_error_fails_execution_w :
    execute_circuit (fun _ => some ⟨[], 0⟩)
        (fun _ _ _ => .ok ([], 0, .RequiresOracleData 0 []
          [⟨⟨[1], 0, []⟩, ⟨"bad", []⟩⟩, ⟨⟨[2], 0, []⟩, ⟨"good", []⟩⟩]))
        (fun w => if w.function = "bad" then .error ("host boom") else .ok ⟨[]⟩)
        (4 + 1) [] [] =
      .failed ("host boom") :=
  handler_error_fails_execution (fun _ => some ⟨[], 0⟩)
    (fun _ _ _ => .ok ([], 0, .RequiresOracleData 0 []
      [⟨⟨[1], 0, []⟩, ⟨"bad", []⟩⟩, ⟨⟨[2], 0, []⟩, ⟨"good", []⟩⟩]))
    (fun w => if w.function = "bad" then .error ("host boom") else .ok ⟨[]⟩)
    [] [] [] 0 0 ⟨[], 0⟩ [] [] [⟨⟨[2], 0, []⟩, ⟨"good", []⟩⟩]
    ⟨⟨[1], 0, []⟩, ⟨"bad", []⟩⟩ "host boom" rfl rfl (fun c2 h2 => by cases h2)
    (fun c2 h2 => by
      cases h2 with
      | head => exact ⟨⟨[]⟩, rfl⟩
      | tail _ h3 => cases h3)
    rfl 4

/-- C3 (evaluation at the failing input): a signature of 65 field elements —
all resolvable, with the public-key witnesses bound — does not make the
adapter return a SchnorrVerify resolution failure before the module call.
The extra byte is silently dropped by the `[0..32]` and `[32..64]` slices:
with a vendor answering `true` the adapter returns `Solved` with the output
witness set to 1, and a vendor error surfaces as the result of the adapter,
showing the module call is made. A signature of 63 elements panics at the
`[32..64]` slice instead of returning the resolution failure whose message
(`signature should be 64 bytes long, found only .. bytes`) sits on an
unreachable `map_err`. -/
theorem schnorr_oversized_signature_reaches_module :
    schnorr_verify (fun _ _ _ _ => .ok true) (sigMap 65) 1 2 (sigWits 65)
        [] 100 =
      .ok (insertW (sigMap 65) 100 1) .Solved ∧
    schnorr_verify (fun _ _ _ _ => .error ("vendor invoked")) (sigMap 65) 1 2
        (sigWits 65) [] 100 =
      .err (sigMap 65)
        (.BlackBoxFunctionFailed .SchnorrVerify ("vendor invoked")) ∧
    schnorr_verify (fun _ _ _ _ => .ok true) (sigMap 63) 1 2 (sigWits 63)
        [] 100 =
      .panic ("range end index 64 out of range") :=
  ⟨rfl, rfl, rfl⟩

/-- C4 counterexample: with well-formed input lengths (64 signature
elements), a vendor reporting the signature invalid and the output witness
already bound to 1, the adapter does not return `Solved`: the insert of 0
reports an unsatisfied-constraint error. -/
theorem schnorr_false_conflicting_output_cex :
    schnorr_verify (fun _ _ _ _ => .ok false) ((100, 1) :: sigMap 64) 1 2
        (sigWits 64) [] 100 =
      .err (insertW ((100, 1) :: sigMap 64) 100 0) .UnsatisfiedConstrain ∧
    (schnorr_verify (fun _ _ _ _ => .ok false) ((100, 1) :: sigMap 64) 1 2
        (sigWits 64) [] 100).isOk = false :=
  ⟨rfl, rfl⟩

/-- C4 amended: with well-formed input lengths, a module call reporting the
signature invalid and an output witness slot not already bound to a
conflicting value, the adapter writes the field element 0 to the output
witness and returns `Solved` — the false verification result is not an
execution failure. -/
theorem schnorr_false_writes_zero_amended
    (vendor : List Nat → List Nat → List Nat → List Nat → Except String Bool)
    (m : WitnessMap) (pkx pky : Nat) (sig msg : List Nat) (out : Nat)
    (hpkx : (lookupW m pkx).isSome) (hpky : (lookupW m pky).isSome)
    (hsig : ∀ s ∈ sig, (lookupW m s).isSome) (hsiglen : sig.length = 64)
    (hmsg : ∀ s ∈ msg, (lookupW m s).isSome)
    (hv : ∀ a b c d, vendor a b c d = .ok false)
    (hout : lookupW m out = none ∨ lookupW m out = some 0) :
    schnorr_verify vendor m pkx pky sig msg out =
      .ok (insertW m out 0) .Solved := by
  obtain ⟨vx, hvx⟩ := Option.isSome_iff_exists.mp hpkx
  obtain ⟨vy, hvy⟩ := Option.isSome_iff_exists.mp hpky
  obtain ⟨sb, hsb, hsblen⟩ := collectLowBytes_ok m sig hsig
  obtain ⟨mb, hmb, _⟩ := collectLowBytes_ok m msg hmsg
  have hsb64 : sb.length = 64 := hsblen.trans hsiglen
  rcases hout with hout | hout <;>
    simp [schnorr_verify, witness_to_value, hvx, hvy, hsb, hmb, hv, sliceRange,
      hsb64, toBeBytes_length, insert_value, hout]

/-- Witness for the amended C4 at 64 concrete signature elements and an
unbound output witness. -/
theorem schnorr_false_writes_zero_amended_w :
    schnorr_verify (fun _ _ _ _ => .ok false) (sigMap 64) 1 2 (sigWits 64)
        [] 100 =
      .ok (insertW (sigMap 64) 100 0) .Solved :=
  schnorr_false_writes_zero_amended (fun _ _ _ _ => .ok false) (sigMap 64) 1 2
    (sigWits 64) [] 100 (by decide) (by decide) (by decide) (by decide)
    (by decide) (fun _ _ _ _ => rfl) (Or.inl (by decide))

/-- With fewer than two designated output slots, the `pedersen` adapter can
never return a successful resolution: the outcome is a slice-index panic or
a returned error, for every vendor, witness map and input list. -/
theorem pedersen_short_outputs_not_ok
    (vendor : List Nat → Except String (Nat × Nat)) (m : WitnessMap)
    (inputs : List Nat) (ds : Nat) (outputs : List Nat)
    (h : outputs.length < 2) :
    (pedersen vendor m inputs ds outputs).isOk = false := by
  have h1 : outputs[1]? = none := List.getElem?_eq_none (by omega)
  cases hcv : collectValues m inputs with
  | error e => simp [pedersen, hcv, RRes.isOk]
  | ok scalars =>
      cases hv : vendor scalars with
      | error e => simp [pedersen, hcv, hv, RRes.isOk]
      | ok p =>
          obtain ⟨x, y⟩ := p
          cases h0 : outputs[0]? with
          | none => simp [pedersen, hcv, hv, h0, RRes.isOk]
          | some o0 =>
              cases hlk : lookupW m o0 with
              | none =>
                  simp [pedersen, hcv, hv, h0, h1, insert_value, hlk,
                    RRes.isOk]
              | some old =>
                  by_cases heq : old = x <;>
                    simp [pedersen, hcv, hv, h0, h1, insert_value, hlk, heq,
                      RRes.isOk]

/-- C5 counterexample: a successful module call with two designated output
slots, the first already bound to a conflicting value: the adapter stops
after the first insert, so the second output witness is never written —
fewer than two output elements are written. -/
theorem pedersen_conflicting_output_cex :
    pedersen (fun _ => .ok (1, 2)) [(3, 9), (5, 99)] [3] 0 [5, 6] =
      .err (insertW [(3, 9), (5, 99)] 5 1) .UnsatisfiedConstrain ∧
    lookupW (insertW [(3, 9), (5, 99)] 5 1) 6 = none :=
  ⟨rfl, rfl⟩

/-- C5 amended: when the module call succeeds, at least two output slots are
designated and neither of the first two slots holds a conflicting value, the
adapter writes exactly the two curve coordinates to the first and second
designated output witnesses and returns `Solved`; with fewer than two
designated slots the adapter never succeeds (it panics or reports an error)
rather than silently truncating. -/
theorem pedersen_writes_two_amended
    (vendor : List Nat → Except String (Nat × Nat)) (m : WitnessMap)
    (inputs : List Nat) (ds : Nat) (outputs outputs2 : List Nat)
    (o0 o1 x y : Nat)
    (hin : ∀ i ∈ inputs, (lookupW m i).isSome)
    (hv : ∀ s, vendor s = .ok (x, y))
    (h0 : outputs[0]? = some o0) (h1 : outputs[1]? = some o1)
    (hc0 : lookupW m o0 = none ∨ lookupW m o0 = some x)
    (hc1 : lookupW (insertW m o0 x) o1 = none ∨
      lookupW (insertW m o0 x) o1 = some y)
    (hshort : outputs2.length < 2) :
    pedersen vendor m inputs ds outputs =
        .ok (insertW (insertW m o0 x) o1 y) .Solved ∧
      (pedersen vendor m inputs ds outputs2).isOk = false := by
  refine ⟨?_, pedersen_short_outputs_not_ok vendor m inputs ds outputs2 hshort⟩
  obtain ⟨vs, hvs, _⟩ := collectValues_ok m inputs hin
  rcases hc0 with hc0 | hc0 <;> rcases hc1 with hc1 | hc1 <;>
    simp [pedersen, hvs, hv, h0, h1, insert_value, hc0, hc1]

/-- Witness for the amended C5: two inputs, fresh output slots 5 and 6, and a
one-slot output list that cannot succeed. -/
theorem pedersen_writes_two_amended_w :
    pedersen (fun _ => .ok (11, 12)) [(3, 9), (4, 8)] [3, 4] 0 [5, 6] =
        .ok (insertW (insertW [(3, 9), (4, 8)] 5 11) 6 12) .Solved ∧
      (pedersen (fun _ => .ok (11, 12)) [(3, 9), (4, 8)] [3, 4] 0 [5]).isOk =
        false :=
  pedersen_writes_two_amended (fun _ => .ok (11, 12)) [(3, 9), (4, 8)] [3, 4] 0
    [5, 6] [5] 5 6 11 12 (by decide) (fun _ => rfl) rfl rfl (Or.inl rfl)
    (Or.inl rfl) (by decide)

/-- C6 counterexample: in `fixed_base_scalar_mul`, a successful module call
whose first designated output slot holds a conflicting value: that first
slot receives the new coordinate, the call fails, and the second output is
never written — a partial output write on failure. -/
theorem fixed_base_partial_write_cex :
    fixed_base_scalar_mul (fun _ => .ok (4, 5)) [(3, 9), (7, 99)] 3 [7, 8] =
      .err (insertW [(3, 9), (7, 99)] 7 4) .UnsatisfiedConstrain ∧
    lookupW (insertW [(3, 9), (7, 99)] 7 4) 7 = some 4 ∧
    lookupW (insertW [(3, 9), (7, 99)] 7 4) 8 = none :=
  ⟨rfl, rfl, rfl⟩

/-- C6 amended: in all three adapters, output witnesses are written only
after the module call has succeeded — a module-call failure (first three
conjuncts) and likewise an input-resolution failure (last three conjuncts)
leaves the witness map untouched. The input-resolution conjuncts hold for an
arbitrary vendor with no resolvability hypotheses: for `schnorr_verify`
every missing-assignment failure carries the untouched map, and for
`pedersen` and `fixed_base_scalar_mul` a failing input resolution returns
that error with the untouched map. Output writes are however sequential, not
atomic: a conflicting value in an output slot stops the adapter mid-write,
leaving the outputs inserted so far in the map (see the counterexample). -/
theorem adapters_no_writes_before_module_success
    (m mB : WitnessMap) (e1 e2 e3 : String) (pkx pky out inp ds : Nat)
    (sig msg inputs : List Nat) (outs1 outs2 : List Nat)
    (vendorS : List Nat → List Nat → List Nat → List Nat → Except String Bool)
    (vendorP : List Nat → Except String (Nat × Nat))
    (vendorF : Nat → Except String (Nat × Nat))
    (pkxB pkyB outB inpB dsB : Nat) (sigB msgB inputsB : List Nat)
    (outsB1 outsB2 : List Nat) (eB : OpcodeResolutionError)
    (hpkx : (lookupW m pkx).isSome) (hpky : (lookupW m pky).isSome)
    (hsig : ∀ s ∈ sig, (lookupW m s).isSome) (hsiglen : sig.length = 64)
    (hmsg : ∀ s ∈ msg, (lookupW m s).isSome)
    (hinputs : ∀ i ∈ inputs, (lookupW m i).isSome)
    (hinp : (lookupW m inp).isSome)
    (hbadP : collectValues mB inputsB = .error eB)
    (hbadF : lookupW mB inpB = none) :
    schnorr_verify (fun _ _ _ _ => .error e1) m pkx pky sig msg out =
        .err m (.BlackBoxFunctionFailed .SchnorrVerify e1) ∧
      pedersen (fun _ => .error e2) m inputs ds outs1 =
        .err m (.BlackBoxFunctionFailed .Pedersen e2) ∧
      fixed_base_scalar_mul (fun _ => .error e3) m inp outs2 =
        .err m (.BlackBoxFunctionFailed .FixedBaseScalarMul e3) ∧
      untouchedOnMissing (schnorr_verify vendorS mB pkxB pkyB sigB msgB outB)
        mB ∧
      pedersen vendorP mB inputsB dsB outsB1 = .err mB eB ∧
      fixed_base_scalar_mul vendorF mB inpB outsB2 =
        .err mB (.OpcodeNotSolvable inpB) := by
  obtain ⟨vx, hvx⟩ := Option.isSome_iff_exists.mp hpkx
  obtain ⟨vy, hvy⟩ := Option.isSome_iff_exists.mp hpky
  obtain ⟨sb, hsb, hsblen⟩ := collectLowBytes_ok m sig hsig
  obtain ⟨mb, hmb, _⟩ := collectLowBytes_ok m msg hmsg
  obtain ⟨vs, hvs, _⟩ := collectValues_ok m inputs hinputs
  obtain ⟨vi, hvi⟩ := Option.isSome_iff_exists.mp hinp
  have hsb64 : sb.length = 64 := hsblen.trans hsiglen
  refine ⟨?_, ?_, ?_, ?_, ?_, ?_⟩
  · simp [schnorr_verify, witness_to_value, hvx, hvy, hsb, hmb, sliceRange,
      hsb64, toBeBytes_length]
  · simp [pedersen, hvs]
  · simp [fixed_base_scalar_mul, witness_to_value, hvi]
  · intro m2 w hw
    cases hx : lookupW mB pkxB with
    | none =>
        simp [schnorr_verify, witness_to_value, hx] at hw
        exact hw.1.symm
    | some vxB =>
    cases hy : lookupW mB pkyB with
    | none =>
        simp [schnorr_verify, witness_to_value, hx, hy] at hw
        exact hw.1.symm
    | some vyB =>
    cases hsB : collectLowBytes mB sigB with
    | error es =>
        simp [schnorr_verify, witness_to_value, hx, hy, hsB,
          toBeBytes_length] at hw
        exact hw.1.symm
    | ok sbB =>
    cases hsl0 : sliceRange sbB 0 32 with
    | none =>
        simp [schnorr_verify, witness_to_value, hx, hy, hsB, hsl0,
          toBeBytes_length] at hw
    | some s0 =>
    have h320 : s0.length = 32 := by
      have := sliceRange_some_length sbB 0 32 s0 hsl0
      omega
    cases hsl1 : sliceRange sbB 32 64 with
    | none =>
        simp [schnorr_verify, witness_to_value, hx, hy, hsB, hsl0, h320,
          hsl1, toBeBytes_length] at hw
    | some s1 =>
    have h321 : s1.length = 32 := by
      have := sliceRange_some_length sbB 32 64 s1 hsl1
      omega
    cases hmsgB : collectLowBytes mB msgB with
    | error em =>
        simp [schnorr_verify, witness_to_value, hx, hy, hsB, hsl0, h320,
          hsl1, h321, hmsgB, toBeBytes_length] at hw
        exact hw.1.symm
    | ok mbB =>
    cases hv : vendorS (toBeBytes vxB ++ toBeBytes vyB) s0 s1 mbB with
    | error ev =>
        simp [schnorr_verify, witness_to_value, hx, hy, hsB, hsl0, h320,
          hsl1, h321, hmsgB, hv, toBeBytes_length] at hw
    | ok b =>
    cases hlk : lookupW mB outB with
    | none =>
        simp [schnorr_verify, witness_to_value, hx, hy, hsB, hsl0, h320,
          hsl1, h321, hmsgB, hv, hlk, insert_value, toBeBytes_length] at hw
    | some old =>
        by_cases heq : old = (if b then 1 else 0) <;>
          simp [schnorr_verify, witness_to_value, hx, hy, hsB, hsl0, h320,
            hsl1, h321, hmsgB, hv, hlk, heq, insert_value,
            toBeBytes_length] at hw
  · simp [pedersen, hbadP]
  · simp [fixed_base_scalar_mul, witness_to_value, hbadF]

/-- Witness for the amended C6: failing vendors over a fully-resolvable map
for the module-failure conjuncts, and succeeding vendors over the empty map
(every input lookup fails) for the input-resolution conjuncts. -/
theorem adapters_no_writes_before_module_success_w :
    schnorr_verify (fun _ _ _ _ => .error ("s fail")) (sigMap 64) 1 2
        (sigWits 64) [] 100 =
        .err (sigMap 64) (.BlackBoxFunctionFailed .SchnorrVerify ("s fail")) ∧
      pedersen (fun _ => .error ("p fail")) (sigMap 64) [1, 2] 0 [5, 6] =
        .err (sigMap 64) (.BlackBoxFunctionFailed .Pedersen ("p fail")) ∧
      fixed_base_scalar_mul (fun _ => .error ("f fail")) (sigMap 64) 1 [5, 6] =
        .err (sigMap 64)
          (.BlackBoxFunctionFailed .FixedBaseScalarMul ("f fail")) ∧
      untouchedOnMissing
        (schnorr_verify (fun _ _ _ _ => .ok true) [] 1 2 [] [] 7) [] ∧
      pedersen (fun _ => .ok (1, 2)) [] [42] 0 [5, 6] =
        .err [] (.OpcodeNotSolvable 42) ∧
      fixed_base_scalar_mul (fun _ => .ok (3, 4)) [] 9 [5, 6] =
        .err [] (.OpcodeNotSolvable 9) :=
  adapters_no_writes_before_module_success (sigMap 64) [] "s fail" "p fail"
    "f fail" 1 2 100 1 0 (sigWits 64) [] [1, 2] [5, 6] [5, 6]
    (fun _ _ _ _ => .ok true) (fun _ => .ok (1, 2)) (fun _ => .ok (3, 4))
    1 2 7 9 0 [] [] [42] [5, 6] [5, 6] (.OpcodeNotSolvable 42) (by decide)
    (by decide) (by decide) (by decide) (by decide) (by decide) (by decide)
    rfl rfl
